import Mathlib

/-!
Verification of the workflow orchestration engine of the kimi-writer
repository (multi-agent novel generation backend).

The development shallowly embeds the Python sources:

* `backend/config.py` — the `Phase` enum and the `AgentConfig` field bounds;
* `backend/tools/writing_tools.py` — `GetChapterContextTool`, `WriteChapterTool`,
  `FinalizeChapterTool`;
* `backend/tools/write_critique_tools.py` — `CritiqueChapterTool`,
  `ApproveChapterTool`, `RequestRevisionTool`;
* `backend/tools/writer.py` — `WriteFileTool`;
* `backend/tools/project.py` — `sanitize_folder_name`;
* `backend/websocket_manager.py` — `WebSocketManager.broadcast` / `disconnect`.

The module `backend/state_manager.py` (`NovelState`, `update_phase`,
`increment_chapter`, `save_state`) is not part of the source tree that was
given; its definitions below are modelled from the specification (sections 3,
4.1, 4.4, 5, 7, 9) and from how the tools in the source tree use them, and are
marked `Modelled from the spec:` in their doc comments.

Python dictionaries are embedded as association lists, Python sets of
subscribers as lists, the file system as an association list from paths to
contents, and raised exceptions as `Except` errors.  Where a tool wraps its
body in `try/except Exception`, the embedding catches the error and produces
the failure result dictionary the source returns; where there is no such
wrapper the error propagates in the `Except` monad.
-/

set_option maxHeartbeats 1000000

namespace KimiWriter

/-- Workflow phases, from the `Phase` enum in `backend/config.py`. -/
inductive Phase where
  | PLANNING
  | PLAN_CRITIQUE
  | WRITING
  | WRITE_CRITIQUE
  | COMPLETE
deriving DecidableEq, Repr

/-- Error taxonomy entries raised by the state layer (spec section 7):
`stateConflict` for a disallowed phase transition, `persistence` for a state
write failure. -/
inductive StateError where
  | stateConflict
  | persistence
deriving DecidableEq, Repr

/-- Lookup in an association list embedding a Python dictionary. -/
def lookupA {κ α : Type} [DecidableEq κ] : List (κ × α) → κ → Option α
  | [], _ => none
  | (k, v) :: rest, q => if k = q then some v else lookupA rest q

/-- Key update in an association list embedding a Python dictionary:
replaces the binding when the key is present, appends it otherwise. -/
def setA {κ α : Type} [DecidableEq κ] : List (κ × α) → κ → α → List (κ × α)
  | [], q, v => [(q, v)]
  | (k, w) :: rest, q, v =>
      if k = q then (q, v) :: rest else (k, w) :: setA rest q v

/-- Key deletion in an association list embedding a Python dictionary. -/
def delA {κ α : Type} [DecidableEq κ] : List (κ × α) → κ → List (κ × α)
  | [], _ => []
  | (k, w) :: rest, q =>
      if k = q then delA rest q else (k, w) :: delA rest q

/-- Read of `state.chapter_critique_iterations.get(ch, 0)`: a dictionary
lookup with default `0`. -/
def dictGet (m : List (Nat × Nat)) (k : Nat) : Nat :=
  (lookupA m k).getD 0

/-- Membership test `ch in state.chapter_critique_iterations`. -/
def dictMem (m : List (Nat × Nat)) (k : Nat) : Bool :=
  (lookupA m k).isSome

/-- Modelled from the spec: the `NovelState` record of the missing
`backend/state_manager.py`, with the fields of spec section 3 under the
attribute names the tools in the source tree use: `phase`,
`current_chapter`, `total_chapters`, `chapters_completed` (list),
`chapters_approved` (list), `chapter_critique_iterations` (dictionary from
chapter number to revision count), and `plan_files_created` (the artifact
index, a set of relative paths recorded by `WriteFileTool`). -/
structure NovelState where
  phase : Phase
  current_chapter : Nat
  total_chapters : Nat
  chapters_completed : List Nat
  chapters_approved : List Nat
  chapter_critique_iterations : List (Nat × Nat)
  plan_files_created : List String
deriving DecidableEq, Repr

/-- Modelled from the spec: the allowed-edge table of section 4.1, read as a
relation on `(from, to)` phase pairs.  `COMPLETE` has no outgoing edge. -/
def allowedEdge : Phase → Phase → Bool
  | .PLANNING, .PLAN_CRITIQUE => true
  | .PLAN_CRITIQUE, .WRITING => true
  | .PLAN_CRITIQUE, .PLANNING => true
  | .WRITING, .WRITE_CRITIQUE => true
  | .WRITE_CRITIQUE, .WRITING => true
  | .WRITE_CRITIQUE, .COMPLETE => true
  | _, _ => false

/-- Modelled from the spec: `state_manager.update_phase` is not in the given
source tree; per sections 4.1 and 4.4 it validates the requested edge against
the allowed-edge table before mutating, raising `StateConflictError` (and
leaving the phase untouched) when the edge is not in the table. -/
def update_phase (s : NovelState) (p : Phase) : Except StateError NovelState :=
  if allowedEdge s.phase p then .ok { s with phase := p }
  else .error .stateConflict

/-- Modelled from the spec: `state_manager.increment_chapter` advances
`current_chapter` by one (section 4.1, the `approve_chapter` edge with more
chapters remaining). -/
def increment_chapter (s : NovelState) : NovelState :=
  { s with current_chapter := s.current_chapter + 1 }

/-- Ambient state a tool execution reads and writes: the module-level active
project folder of `backend/tools/project.py`, the project file system
(association list from path to content), whether a persistence write
succeeds, the in-memory `NovelState` handed to the tool (`None` when the
caller passes no state), and the last successfully persisted snapshot. -/
structure SysState where
  folder : Option String
  fs : List (String × String)
  persistOk : Bool
  mem : Option NovelState
  disk : Option NovelState
deriving DecidableEq, Repr

/-- Modelled from the spec: `state_manager.save_state` rewrites the persisted
snapshot wholesale from the in-memory state (sections 5 and 6) and raises
`PersistenceError` when the write fails (section 7).  Per the design note in
section 9 the source persists in a single separate step after the in-memory
mutation, with no retry and no rollback, which is what is embedded here. -/
def save_state (sys : SysState) : Except StateError SysState :=
  if sys.persistOk then .ok { sys with disk := sys.mem }
  else .error .persistence

/-- Result dictionary returned by a tool `execute` method: the `success` and
`message` fields always present in the source, plus the optional
`auto_approve`, `transition` (its `to_phase` field) and `is_complete`
entries. -/
structure ToolResult where
  success : Bool
  message : String
  auto_approve : Bool := false
  transition : Option Phase := none
  is_complete : Bool := false
deriving DecidableEq, Repr

/-- Zero-padded two-digit chapter number, the Python format `{n:02d}`. -/
def pad2 (n : Nat) : String :=
  if n < 10 then "0" ++ toString n else toString n

/-- Path `manuscript/chapter_{n:02d}.md` under the project folder. -/
def chapterPath (folder : String) (n : Nat) : String :=
  folder ++ "/manuscript/chapter_" ++ pad2 n ++ ".md"

/-- Path `critiques/chapter_{n:02d}_critique_v{v}.md` under the project
folder. -/
def critiquePath (folder : String) (n v : Nat) : String :=
  folder ++ "/critiques/chapter_" ++ pad2 n ++ "_critique_v" ++ toString v ++ ".md"

/-- Path `critiques/chapter_{n:02d}_approval.md` under the project folder. -/
def approvalPath (folder : String) (n : Nat) : String :=
  folder ++ "/critiques/chapter_" ++ pad2 n ++ "_approval.md"

/-- Path `critiques/chapter_{n:02d}_revision_request_v{v}.md` under the
project folder. -/
def revisionPath (folder : String) (n v : Nat) : String :=
  folder ++ "/critiques/chapter_" ++ pad2 n ++ "_revision_request_v" ++ toString v ++ ".md"

/-- Path `planning/outline.md` under the project folder. -/
def outlinePath (folder : String) : String :=
  folder ++ "/planning/outline.md"

/-- File-system write `open(path, 'w')`: create or replace the file. -/
def fsWrite (fs : List (String × String)) (p content : String) :
    List (String × String) :=
  setA fs p content

/-- File-system write `open(path, 'a')`: append to the file, creating it if
absent. -/
def fsAppendW (fs : List (String × String)) (p content : String) :
    List (String × String) :=
  match lookupA fs p with
  | some old => setA fs p (old ++ content)
  | none => setA fs p content

/-- Failure result shared by every tool when no active project folder is
set. -/
def noProjectResult : ToolResult :=
  { success := false, message := "Error: No active project folder." }

/-- Embedding of `FinalizeChapterTool.execute` (`writing_tools.py`): check
the active project folder, check the chapter file exists, then (when a state
is passed) apply the phase change to `WRITE_CRITIQUE`, set `current_chapter`
to the finalized chapter and persist.  The method has no `try/except`, so an
error raised by `update_phase` or `save_state` propagates to the caller. -/
def FinalizeChapterTool.execute (ch : Nat) (notes : String) (sys : SysState) :
    Except StateError (ToolResult × SysState) :=
  match sys.folder with
  | none => .ok (noProjectResult, sys)
  | some folder =>
    if (lookupA sys.fs (chapterPath folder ch)).isNone then
      .ok ({ success := false,
             message := "Chapter " ++ toString ch ++
               " not found. Write the chapter first using write_chapter." }, sys)
    else
      match sys.mem with
      | none =>
        .ok ({ success := true,
               message := "Chapter " ++ toString ch ++
                 " finalized and submitted for critique.",
               transition := some .WRITE_CRITIQUE }, sys)
      | some st =>
        match update_phase st Phase.WRITE_CRITIQUE with
        | .error e => .error e
        | .ok st =>
          let st := { st with current_chapter := ch }
          match save_state { sys with mem := some st } with
          | .error e => .error e
          | .ok sys =>
            .ok ({ success := true,
                   message := "Chapter " ++ toString ch ++
                     " finalized and submitted for critique.",
                   transition := some .WRITE_CRITIQUE }, sys)

/-- Failure result of the `except Exception` arm of
`ApproveChapterTool.execute`. -/
def approveErrorResult : ToolResult :=
  { success := false, message := "Error approving chapter" }

/-- The state-marking step of `ApproveChapterTool.execute`
(`write_critique_tools.py` lines 368-372): append the chapter to
`chapters_completed` when absent, then to `chapters_approved` when
absent. -/
def markApproved (ch : Nat) (st : NovelState) : NovelState :=
  let st :=
    if ch ∈ st.chapters_completed then st
    else { st with chapters_completed := st.chapters_completed ++ [ch] }
  if ch ∈ st.chapters_approved then st
  else { st with chapters_approved := st.chapters_approved ++ [ch] }

/-- Embedding of `ApproveChapterTool.execute` (`write_critique_tools.py`):
write the approval-notes file, then (when a state is passed) append the
chapter to `chapters_completed` and `chapters_approved` when absent
(`markApproved`), move to `COMPLETE` when
`len(chapters_approved) >= total_chapters` and otherwise advance the
chapter and move back to `WRITING`, then persist.  The body is wrapped in
`try/except Exception`, so an error raised by `update_phase` or
`save_state` is caught and reported as a failure result while every
in-memory mutation made before the raise is retained. -/
def ApproveChapterTool.execute (ch : Nat) (notes : String) (sys : SysState) :
    ToolResult × SysState :=
  match sys.folder with
  | none => (noProjectResult, sys)
  | some folder =>
    let sys := { sys with fs := fsWrite sys.fs (approvalPath folder ch) notes }
    match sys.mem with
    | none =>
      ({ success := true, message := "Chapter " ++ toString ch ++ " approved!",
         is_complete := false, transition := some .WRITING }, sys)
    | some st =>
      let st := markApproved ch st
      if st.total_chapters ≤ st.chapters_approved.length then
        match update_phase st Phase.COMPLETE with
        | .error _ => (approveErrorResult, { sys with mem := some st })
        | .ok st =>
          match save_state { sys with mem := some st } with
          | .error _ => (approveErrorResult, { sys with mem := some st })
          | .ok sys =>
            ({ success := true,
               message := "Chapter " ++ toString ch ++ " approved!",
               is_complete := true, transition := some .COMPLETE }, sys)
      else
        let st := increment_chapter st
        match update_phase st Phase.WRITING with
        | .error _ => (approveErrorResult, { sys with mem := some st })
        | .ok st =>
          match save_state { sys with mem := some st } with
          | .error _ => (approveErrorResult, { sys with mem := some st })
          | .ok sys =>
            ({ success := true,
               message := "Chapter " ++ toString ch ++ " approved!",
               is_complete := false, transition := some .WRITING }, sys)

/-- The hardcoded revision cap in `RequestRevisionTool.execute`
(`write_critique_tools.py` line 464): `max_iterations = 2`, with the source
comment `Default, should come from config`.  The configured
`max_write_critique_iterations` of `AgentConfig` is never consulted. -/
def requestRevisionMaxIterations : Nat := 2

/-- Failure result of the `except Exception` arm of
`RequestRevisionTool.execute`. -/
def revisionErrorResult : ToolResult :=
  { success := false, message := "Error requesting revision" }

/-- Embedding of `RequestRevisionTool.execute` (`write_critique_tools.py`):
check the active project folder; when a state is passed and its stored
critique count for the chapter is already at or above the hardcoded cap,
return a failure result carrying `auto_approve = true` without touching the
state; otherwise write the revision-request file, apply the phase change to
`WRITING` and persist.  The counter is only read (`.get(ch, 0)`), never
written.  The file write, `update_phase` and `save_state` sit inside
`try/except Exception`, so a raised error becomes a failure result. -/
def RequestRevisionTool.execute (ch : Nat) (notes : String) (sys : SysState) :
    ToolResult × SysState :=
  match sys.folder with
  | none => (noProjectResult, sys)
  | some folder =>
    match sys.mem with
    | some st =>
      if requestRevisionMaxIterations ≤ dictGet st.chapter_critique_iterations ch then
        ({ success := false,
           message := "Maximum critique iterations (" ++
             toString requestRevisionMaxIterations ++ ") reached for Chapter " ++
             toString ch ++ ". Auto-approving to prevent infinite loop.",
           auto_approve := true }, sys)
      else
        let version := dictGet st.chapter_critique_iterations ch
        let sys := { sys with fs := fsWrite sys.fs (revisionPath folder ch version) notes }
        match update_phase st Phase.WRITING with
        | .error _ => (revisionErrorResult, sys)
        | .ok st =>
          match save_state { sys with mem := some st } with
          | .error _ => (revisionErrorResult, { sys with mem := some st })
          | .ok sys =>
            ({ success := true,
               message := "Revision requested for Chapter " ++ toString ch ++
                 ". Transitioning back to writing phase.",
               transition := some .WRITING }, sys)
    | none =>
      let sys := { sys with fs := fsWrite sys.fs (revisionPath folder ch 0) notes }
      ({ success := true,
         message := "Revision requested for Chapter " ++ toString ch ++
           ". Transitioning back to writing phase.",
         transition := some .WRITING }, sys)

/-- N-fold repetition of `request_revision` on the same chapter with no
intervening approval or critique, following the ambient state it threads. -/
def iterateRevision (ch : Nat) (notes : String) : Nat → SysState → SysState
  | 0, sys => sys
  | n + 1, sys =>
      iterateRevision ch notes n (RequestRevisionTool.execute ch notes sys).2

/-- Embedding of `CritiqueChapterTool.execute` (`write_critique_tools.py`):
determine the critique version — when a state is passed and the chapter is
already in `chapter_critique_iterations` the stored count is incremented and
written back, when the chapter is absent the count is set to `1` — then
write the critique file and persist.  Only the file write and `save_state`
sit inside `try/except`; the dictionary mutation precedes them and is
retained even when persisting fails. -/
def CritiqueChapterTool.execute (ch : Nat) (critique : String) (sys : SysState) :
    ToolResult × SysState :=
  match sys.folder with
  | none => (noProjectResult, sys)
  | some folder =>
    let verSys : Nat × SysState :=
      match sys.mem with
      | some st =>
        if dictMem st.chapter_critique_iterations ch then
          let v := dictGet st.chapter_critique_iterations ch + 1
          let it := setA st.chapter_critique_iterations ch v
          (v, { sys with mem := some { st with chapter_critique_iterations := it } })
        else
          let it := setA st.chapter_critique_iterations ch 1
          (1, { sys with mem := some { st with chapter_critique_iterations := it } })
      | none => (1, sys)
    let version := verSys.1
    let sys := verSys.2
    let sys := { sys with fs := fsWrite sys.fs (critiquePath folder ch version) critique }
    let okResult : ToolResult :=
      { success := true,
        message := "Critique saved for Chapter " ++ toString ch ++
          " (version " ++ toString version ++ ")." }
    match sys.mem with
    | none => (okResult, sys)
    | some _ =>
      match save_state sys with
      | .error _ => ({ success := false, message := "Error saving critique" }, sys)
      | .ok sys => (okResult, sys)

/-- Embedding of `GetChapterContextTool.execute` (`writing_tools.py`): check
the active project folder and the outline file, then (when a state is
passed) set `current_chapter` to the requested chapter, initialize its
critique count to `0` when the chapter is not yet in the dictionary, and
persist. -/
def GetChapterContextTool.execute (ch : Nat) (sys : SysState) :
    ToolResult × SysState :=
  match sys.folder with
  | none => (noProjectResult, sys)
  | some folder =>
    if (lookupA sys.fs (outlinePath folder)).isNone then
      ({ success := false, message := "Outline file not found." }, sys)
    else
      match sys.mem with
      | none =>
        ({ success := true,
           message := "Context loaded for Chapter " ++ toString ch }, sys)
      | some st =>
        let st := { st with current_chapter := ch }
        let it := setA st.chapter_critique_iterations ch 0
        let st :=
          if dictMem st.chapter_critique_iterations ch then st
          else { st with chapter_critique_iterations := it }
        match save_state { sys with mem := some st } with
        | .error _ =>
          ({ success := false, message := "Error loading context" },
           { sys with mem := some st })
        | .ok sys =>
          ({ success := true,
             message := "Context loaded for Chapter " ++ toString ch }, sys)

/-- The three write modes of `WriteFileTool` (`writer.py`). -/
inductive WriteMode where
  | create
  | append
  | overwrite
deriving DecidableEq, Repr

/-- Append the `.md` suffix when the filename does not already end in it
(`writer.py` lines 78-79, Python `filename.endswith('.md')`); the suffix
test is phrased on the character list so it evaluates by reduction. -/
def ensureMd (filename : String) : String :=
  if filename.toList.reverse.take 3 = ['d', 'm', '.'] then filename
  else filename ++ ".md"

/-- Embedding of `WriteFileTool.execute` (`writer.py`): normalize the
filename to a `.md` suffix and join it under the active project folder.  In
`create` mode the call fails without writing when the file already exists,
and otherwise writes the content verbatim and records the relative path in
`plan_files_created` before persisting; `append` appends (creating the file
when absent, as Python `open(..., 'a')` does); `overwrite` replaces the
content.  The body is wrapped in `try/except`, so a persistence error
becomes a failure result with the file already written. -/
def WriteFileTool.execute (filename content : String) (mode : WriteMode)
    (sys : SysState) : ToolResult × SysState :=
  match sys.folder with
  | none =>
    ({ success := false,
       message := "Error: No active project folder. Please create a project first using create_project." },
     sys)
  | some folder =>
    let fn := ensureMd filename
    let path := folder ++ "/" ++ fn
    match mode with
    | .create =>
      if (lookupA sys.fs path).isSome then
        ({ success := false,
           message := "Error: File '" ++ fn ++
             "' already exists. Use 'append' or 'overwrite' mode to modify it." },
         sys)
      else
        let sys := { sys with fs := fsWrite sys.fs path content }
        let okResult : ToolResult :=
          { success := true,
            message := "Successfully created file '" ++ fn ++ "'." }
        match sys.mem with
        | none => (okResult, sys)
        | some st =>
          let st :=
            if fn ∈ st.plan_files_created then st
            else { st with plan_files_created := st.plan_files_created ++ [fn] }
          match save_state { sys with mem := some st } with
          | .error _ =>
            ({ success := false, message := "Error writing file '" ++ fn ++ "'" },
             { sys with mem := some st })
          | .ok sys => (okResult, sys)
    | .append =>
      ({ success := true,
         message := "Successfully appended to '" ++ fn ++ "'." },
       { sys with fs := fsAppendW sys.fs path content })
    | .overwrite =>
      ({ success := true,
         message := "Successfully overwrote '" ++ fn ++ "'." },
       { sys with fs := fsWrite sys.fs path content })

/-- Validation of the `AgentConfig` iteration fields (`config.py` lines
64-65): `max_plan_critique_iterations` and `max_write_critique_iterations`
are independently settable, each constrained by `ge=1, le=10`. -/
def agentConfigValid (maxPlan maxWrite : Nat) : Bool :=
  1 ≤ maxPlan && maxPlan ≤ 10 && 1 ≤ maxWrite && maxWrite ≤ 10

/-- The word-character class of the Python pattern `\w` restricted to ASCII:
letters, digits and underscore.  (For non-ASCII letters Python's Unicode
`\w` keeps more characters; every property proved below also holds of that
larger class.) -/
def pyIsWordChar (c : Char) : Bool :=
  c.isAlphanum || c = '_'

/-- Strip elements satisfying `p` from both ends of a list — the Python
`str.strip` family. -/
def stripEnds {α : Type} (p : α → Bool) (l : List α) : List α :=
  ((l.dropWhile p).reverse.dropWhile p).reverse

/-- The sanitization pipeline of `sanitize_folder_name` (`project.py`) up to
but excluding the empty-result fallback: strip surrounding whitespace,
replace spaces with underscores, drop every character that is neither a word
character nor a hyphen, and strip leading and trailing hyphens and
underscores. -/
def sanitizeCore (name : String) : List Char :=
  let l := stripEnds Char.isWhitespace name.toList
  let l := l.map (fun c => if c = ' ' then '_' else c)
  let l := l.filter (fun c => pyIsWordChar c || c = '-')
  stripEnds (fun c => c = '-' || c = '_') l

/-- Embedding of `sanitize_folder_name` (`backend/tools/project.py`): the
sanitization pipeline with the fallback to `"untitled_project"` when nothing
remains. -/
def sanitize_folder_name (name : String) : String :=
  if sanitizeCore name = [] then "untitled_project"
  else String.mk (sanitizeCore name)

/-- Per-project live-connection map of `WebSocketManager`
(`websocket_manager.py`): project id to the set of subscriber handles,
embedded as an association list of subscriber lists. -/
abbrev Connections := List (String × List Nat)

/-- Embedding of `WebSocketManager.disconnect`: discard the subscriber from
the project's set and delete the map entry when the set becomes empty; a
no-op when the project has no entry. -/
def WebSocketManager.disconnect (project : String) (ws : Nat)
    (conns : Connections) : Connections :=
  match lookupA conns project with
  | none => conns
  | some subs =>
    let subs' := subs.filter (fun x => x ≠ ws)
    if subs' = [] then delA conns project
    else setA conns project subs'

/-- Delivery loop of `WebSocketManager.broadcast` over the snapshot copy of
the subscriber set: each send either succeeds (the subscriber is recorded as
delivered) or raises, in which case the error is caught and the subscriber
is removed from the live map via `disconnect`; iteration always continues
with the rest of the snapshot. -/
def broadcastLoop (sendOk : Nat → Bool) (project : String) :
    List Nat → Connections → List Nat × Connections
  | [], conns => ([], conns)
  | ws :: rest, conns =>
    if sendOk ws then
      let (d, c) := broadcastLoop sendOk project rest conns
      (ws :: d, c)
    else
      broadcastLoop sendOk project rest
        (WebSocketManager.disconnect project ws conns)

/-- Embedding of `WebSocketManager.broadcast`: a no-op returning no
deliveries when the project has no entry in the connection map, and
otherwise delivery to a snapshot copy of the current subscriber set, with a
failed send removing exactly that subscriber.  The function is total: no
error reaches the caller.  It returns the list of subscribers actually
delivered to and the updated connection map. -/
def WebSocketManager.broadcast (sendOk : Nat → Bool) (project : String)
    (conns : Connections) : List Nat × Connections :=
  match lookupA conns project with
  | none => ([], conns)
  | some subs => broadcastLoop sendOk project subs conns

/-! ## Helper lemmas about the embedded container operations -/

theorem lookupA_setA_self {κ α : Type} [DecidableEq κ] (m : List (κ × α))
    (k : κ) (v : α) : lookupA (setA m k v) k = some v := by
  induction m with
  | nil => simp [setA, lookupA]
  | cons hd tl ih =>
    obtain ⟨k', w⟩ := hd
    by_cases h : k' = k
    · simp [setA, h, lookupA]
    · simp [setA, h, lookupA, ih]

theorem lookupA_delA_self {κ α : Type} [DecidableEq κ] (m : List (κ × α))
    (k : κ) : lookupA (delA m k) k = none := by
  induction m with
  | nil => simp [delA, lookupA]
  | cons hd tl ih =>
    obtain ⟨k', w⟩ := hd
    by_cases h : k' = k
    · simp [delA, h, ih]
    · simp [delA, h, lookupA, ih]

theorem broadcastLoop_all_ok (sendOk : Nat → Bool) (project : String)
    (l : List Nat) (conns : Connections) (h : ∀ x ∈ l, sendOk x = true) :
    broadcastLoop sendOk project l conns = (l, conns) := by
  induction l with
  | nil => simp [broadcastLoop]
  | cons ws rest ih =>
    have hws : sendOk ws = true := h ws (by simp)
    have hrest : ∀ x ∈ rest, sendOk x = true := fun x hx => h x (by simp [hx])
    simp [broadcastLoop, hws, ih hrest]

theorem broadcastLoop_append (sendOk : Nat → Bool) (project : String)
    (l₁ l₂ : List Nat) (conns : Connections) :
    broadcastLoop sendOk project (l₁ ++ l₂) conns =
      ((broadcastLoop sendOk project l₁ conns).1 ++
        (broadcastLoop sendOk project l₂
          (broadcastLoop sendOk project l₁ conns).2).1,
       (broadcastLoop sendOk project l₂
          (broadcastLoop sendOk project l₁ conns).2).2) := by
  induction l₁ generalizing conns with
  | nil => simp [broadcastLoop]
  | cons ws rest ih =>
    by_cases hws : sendOk ws = true
    · simp [broadcastLoop, hws, ih]
    · simp only [Bool.not_eq_true] at hws
      simp [broadcastLoop, hws, ih]

/-! ## C6 and C7: the broadcast hub -/

/-- C6.  For a project channel whose subscriber set splits as
`a ++ f :: b` where every send to `a` and `b` succeeds and the send to `f`
raises, `broadcast` delivers exactly to `a ++ b` (the delivery loop iterates
over the snapshot copy, so the mid-loop removal does not affect it), removes
exactly `f` from the channel (the entry is deleted when `f` was the only
subscriber), and returns normally — `broadcast` is a total function and no
error reaches the caller. -/
theorem broadcast_single_failure (sendOk : Nat → Bool) (project : String)
    (conns : Connections) (a b : List Nat) (f : Nat)
    (hl : lookupA conns project = some (a ++ f :: b))
    (ha : ∀ x ∈ a ++ b, sendOk x = true)
    (hf : sendOk f = false) :
    (WebSocketManager.broadcast sendOk project conns).1 = a ++ b ∧
    lookupA (WebSocketManager.broadcast sendOk project conns).2 project =
      (if a ++ b = [] then none else some (a ++ b)) := by
  have haa : ∀ x ∈ a, sendOk x = true := fun x hx => ha x (by simp [hx])
  have hbb : ∀ x ∈ b, sendOk x = true := fun x hx => ha x (by simp [hx])
  have hfilter : (a ++ f :: b).filter (fun x => x ≠ f) = a ++ b := by
    have hane : ∀ x ∈ a, decide (x ≠ f) = true := by
      intro x hx
      have := haa x hx
      simp only [decide_eq_true_iff]
      intro hxf
      rw [hxf] at this
      rw [this] at hf
      exact absurd hf (by simp)
    have hbne : ∀ x ∈ b, decide (x ≠ f) = true := by
      intro x hx
      have := hbb x hx
      simp only [decide_eq_true_iff]
      intro hxf
      rw [hxf] at this
      rw [this] at hf
      exact absurd hf (by simp)
    have h1 : a.filter (fun x => x ≠ f) = a := List.filter_eq_self.mpr hane
    have h2 : b.filter (fun x => x ≠ f) = b := List.filter_eq_self.mpr hbne
    have h3 : (f :: b).filter (fun x => x ≠ f) = b := by
      rw [List.filter_cons, if_neg (by simp)]
      exact h2
    rw [List.filter_append, h1, h3]
  have hdisc : WebSocketManager.disconnect project f conns =
      (if a ++ b = [] then delA conns project
       else setA conns project (a ++ b)) := by
    unfold WebSocketManager.disconnect
    rw [hl]
    simp only [hfilter]
  have hrun : WebSocketManager.broadcast sendOk project conns =
      (a ++ b, WebSocketManager.disconnect project f conns) := by
    unfold WebSocketManager.broadcast
    rw [hl]
    show broadcastLoop sendOk project (a ++ f :: b) conns = _
    rw [broadcastLoop_append, broadcastLoop_all_ok sendOk project a conns haa]
    have : broadcastLoop sendOk project (f :: b) conns =
        broadcastLoop sendOk project b
          (WebSocketManager.disconnect project f conns) := by
      simp [broadcastLoop, hf]
    rw [this, broadcastLoop_all_ok sendOk project b _ hbb]
  rw [hrun, hdisc]
  refine ⟨rfl, ?_⟩
  by_cases hab : a ++ b = []
  · simp [hab, lookupA_delA_self]
  · simp [hab, lookupA_setA_self]

/-- Witness for C6 at a concrete channel: subscribers `[1, 2, 3]`, the send
to `2` fails, the others succeed. -/
theorem broadcast_single_failure_witness :
    (WebSocketManager.broadcast (fun ws => ws ≠ 2) "p" [("p", [1, 2, 3])]).1 =
      [1] ++ [3] ∧
    lookupA (WebSocketManager.broadcast (fun ws => ws ≠ 2) "p"
        [("p", [1, 2, 3])]).2 "p" =
      (if [1] ++ [3] = ([] : List Nat) then none else some ([1] ++ [3])) :=
  broadcast_single_failure (fun ws => ws ≠ 2) "p" [("p", [1, 2, 3])]
    [1] [3] 2 (by decide) (by decide) (by decide)

/-- C7.  `broadcast` on a project with no registered channel returns
successfully (it is a total function), delivers to nobody, and leaves the
connection map unchanged. -/
theorem broadcast_no_channel (sendOk : Nat → Bool) (project : String)
    (conns : Connections) (h : lookupA conns project = none) :
    WebSocketManager.broadcast sendOk project conns = ([], conns) := by
  unfold WebSocketManager.broadcast
  rw [h]

/-- Witness for C7 at a concrete connection map that has a channel for a
different project only. -/
theorem broadcast_no_channel_witness :
    WebSocketManager.broadcast (fun _ => true) "p" [("q", [1])] =
      ([], [("q", [1])]) :=
  broadcast_no_channel (fun _ => true) "p" [("q", [1])] (by decide)

/-! ## Helper lemmas about `dropWhile` and `stripEnds` -/

theorem mem_of_mem_dropWhileB {α : Type} (p : α → Bool) :
    ∀ {l : List α} {x : α}, x ∈ l.dropWhile p → x ∈ l := by
  intro l
  induction l with
  | nil => intro x h; simpa using h
  | cons a t ih =>
    intro x h
    by_cases ha : p a = true
    · rw [List.dropWhile_cons_of_pos ha] at h
      exact List.mem_cons_of_mem a (ih h)
    · rw [List.dropWhile_cons_of_neg ha] at h
      exact h

theorem head?_dropWhile_false {α : Type} (p : α → Bool) :
    ∀ {l : List α} {c : α}, (l.dropWhile p).head? = some c → p c = false := by
  intro l
  induction l with
  | nil => intro c h; simp [List.dropWhile] at h
  | cons a t ih =>
    intro c h
    by_cases ha : p a = true
    · rw [List.dropWhile_cons_of_pos ha] at h
      exact ih h
    · rw [List.dropWhile_cons_of_neg ha] at h
      simp only [List.head?_cons, Option.some.injEq] at h
      rw [← h]
      exact Bool.eq_false_iff.mpr ha

theorem getLast?_dropWhile_of_ne_nil {α : Type} (p : α → Bool) :
    ∀ {l : List α}, l.dropWhile p ≠ [] →
      (l.dropWhile p).getLast? = l.getLast? := by
  intro l
  induction l with
  | nil => intro h; simp [List.dropWhile] at h
  | cons a t ih =>
    intro h
    by_cases ha : p a = true
    · rw [List.dropWhile_cons_of_pos ha] at h ⊢
      rw [ih h]
      have ht : t ≠ [] := by
        intro ht
        rw [ht] at h
        simp [List.dropWhile] at h
      match t, ht with
      | x :: xs, _ => simp [List.getLast?_cons_cons]
    · rw [List.dropWhile_cons_of_neg ha]

theorem mem_of_mem_stripEnds {α : Type} [DecidableEq α] (p : α → Bool)
    {l : List α} {x : α} (h : x ∈ stripEnds p l) : x ∈ l := by
  unfold stripEnds at h
  rw [List.mem_reverse] at h
  have h₂ := mem_of_mem_dropWhileB p h
  rw [List.mem_reverse] at h₂
  exact mem_of_mem_dropWhileB p h₂

theorem head?_stripEnds {α : Type} (p : α → Bool) {l : List α} {c : α}
    (h : (stripEnds p l).head? = some c) : p c = false := by
  unfold stripEnds at h
  rw [List.head?_reverse] at h
  have hne : (l.dropWhile p).reverse.dropWhile p ≠ [] := by
    intro hnil
    rw [hnil] at h
    simp at h
  rw [getLast?_dropWhile_of_ne_nil p hne, List.getLast?_reverse] at h
  exact head?_dropWhile_false p h

theorem getLast?_stripEnds {α : Type} (p : α → Bool) {l : List α} {c : α}
    (h : (stripEnds p l).getLast? = some c) : p c = false := by
  unfold stripEnds at h
  rw [List.getLast?_reverse] at h
  exact head?_dropWhile_false p h

/-! ## C10: `sanitize_folder_name` -/

/-- Counterexample for C10 as stated: the output is `"untitled_project"` on
the input `"untitled_project"` as well, an input which sanitization does not
reduce to nothing — so "equals `untitled_project` exactly when sanitization
leaves nothing" fails in the only-if direction. -/
theorem sanitize_untitled_counterexample :
    sanitize_folder_name "untitled_project" = "untitled_project" ∧
    sanitizeCore "untitled_project" ≠ [] := by
  constructor
  · decide
  · decide

/-- C10 (amended).  `sanitize_folder_name` always returns a non-empty string
whose characters are word characters (letters, digits, underscore) or
hyphens — in particular no spaces and no path separators — that neither
starts nor ends with a hyphen or underscore, and it returns
`"untitled_project"` whenever sanitization leaves nothing (the converse
fails: an input sanitizing to exactly that string also yields it). -/
theorem sanitize_folder_name_spec (s : String) :
    sanitize_folder_name s ≠ "" ∧
    (∀ c ∈ (sanitize_folder_name s).toList, pyIsWordChar c = true ∨ c = '-') ∧
    (∀ c, (sanitize_folder_name s).toList.head? = some c →
      ¬(c = '-' ∨ c = '_')) ∧
    (∀ c, (sanitize_folder_name s).toList.getLast? = some c →
      ¬(c = '-' ∨ c = '_')) ∧
    (sanitizeCore s = [] → sanitize_folder_name s = "untitled_project") := by
  by_cases hc : sanitizeCore s = []
  · have hval : sanitize_folder_name s = "untitled_project" := by
      unfold sanitize_folder_name
      rw [if_pos hc]
    rw [hval]
    refine ⟨by decide, by decide, by decide, by decide, fun _ => rfl⟩
  · have hval : sanitize_folder_name s = String.mk (sanitizeCore s) := by
      unfold sanitize_folder_name
      rw [if_neg hc]
    have hdata : (sanitize_folder_name s).toList = sanitizeCore s := by
      rw [hval]
      rfl
    refine ⟨?_, ?_, ?_, ?_, fun h => absurd h hc⟩
    · intro hemp
      apply hc
      have := congrArg String.toList hemp
      rw [hdata] at this
      exact this
    · intro c hcmem
      rw [hdata] at hcmem
      unfold sanitizeCore at hcmem
      have hmem := mem_of_mem_stripEnds _ hcmem
      have hp := List.of_mem_filter hmem
      simp only [Bool.or_eq_true, decide_eq_true_eq] at hp
      rcases hp with hp | hp
      · exact Or.inl hp
      · exact Or.inr hp
    · intro c hhead
      rw [hdata] at hhead
      unfold sanitizeCore at hhead
      have := head?_stripEnds _ hhead
      simp only [Bool.or_eq_false_iff, decide_eq_false_iff_not] at this
      intro habs
      rcases habs with h | h
      · exact this.1 h
      · exact this.2 h
    · intro c hlast
      rw [hdata] at hlast
      unfold sanitizeCore at hlast
      have := getLast?_stripEnds _ hlast
      simp only [Bool.or_eq_false_iff, decide_eq_false_iff_not] at this
      intro habs
      rcases habs with h | h
      · exact this.1 h
      · exact this.2 h

/-- Witness for C10 at the concrete input `" My Novel! "`, which sanitizes
to `"My_Novel"` with leading character `M`. -/
theorem sanitize_folder_name_spec_witness :
    sanitize_folder_name " My Novel! " ≠ "" ∧
    (pyIsWordChar 'M' = true ∨ 'M' = '-') ∧
    ¬('M' = '-' ∨ 'M' = '_') :=
  ⟨(sanitize_folder_name_spec " My Novel! ").1,
   (sanitize_folder_name_spec " My Novel! ").2.1 'M' (by decide),
   (sanitize_folder_name_spec " My Novel! ").2.2.1 'M' (by decide)⟩

/-! ## C2: transition validation -/

theorem allowedEdge_into_write_critique (p : Phase) (h : p ≠ Phase.WRITING) :
    allowedEdge p Phase.WRITE_CRITIQUE = false := by
  cases p <;> first | rfl | exact absurd rfl h

/-- C2.  Phase changes are validated against the allowed-edge table before
any mutation: `update_phase` on an edge not in the table fails with
`StateConflictError` and produces no mutated state; `COMPLETE` has no
outgoing edge; `finalize_chapter` invoked on an existing chapter while the
phase is not `WRITING` fails with `StateConflictError`; and
`request_revision` whose `WRITING` edge is not allowed from the current
phase returns a failure result with the in-memory state unchanged. -/
theorem transition_validation :
    (∀ (s : NovelState) (p : Phase), allowedEdge s.phase p = false →
        update_phase s p = Except.error StateError.stateConflict) ∧
    (∀ p : Phase, allowedEdge Phase.COMPLETE p = false) ∧
    (∀ (sys : SysState) (st : NovelState) (f : String) (ch : Nat)
        (notes : String),
        sys.mem = some st → sys.folder = some f →
        (lookupA sys.fs (chapterPath f ch)).isSome = true →
        st.phase ≠ Phase.WRITING →
        FinalizeChapterTool.execute ch notes sys =
          Except.error StateError.stateConflict) ∧
    (∀ (sys : SysState) (st : NovelState) (f : String) (ch : Nat)
        (notes : String),
        sys.mem = some st → sys.folder = some f →
        allowedEdge st.phase Phase.WRITING = false →
        dictGet st.chapter_critique_iterations ch <
          requestRevisionMaxIterations →
        (RequestRevisionTool.execute ch notes sys).1.success = false ∧
        (RequestRevisionTool.execute ch notes sys).2.mem = some st) := by
  refine ⟨?_, ?_, ?_, ?_⟩
  · intro s p h
    simp [update_phase, h]
  · intro p
    cases p <;> rfl
  · intro sys st f ch notes hm hf hex hph
    obtain ⟨fo, fs, po, mm, dk⟩ := sys
    simp only at hm hf hex
    subst hm hf
    have hedge := allowedEdge_into_write_critique st.phase hph
    rw [Option.isSome_iff_exists] at hex
    obtain ⟨v, hv⟩ := hex
    simp [FinalizeChapterTool.execute, hv, update_phase, hedge]
  · intro sys st f ch notes hm hf hedge hcount
    obtain ⟨fo, fs, po, mm, dk⟩ := sys
    simp only at hm hf
    subst hm hf
    have hguard : ¬ requestRevisionMaxIterations ≤
        dictGet st.chapter_critique_iterations ch := Nat.not_le_of_lt hcount
    simp [RequestRevisionTool.execute, hguard, update_phase, hedge,
      revisionErrorResult]

/-- Witness for C2: a `COMPLETE`-phase state refuses both a direct
`update_phase` to `WRITING` and a `finalize_chapter` on an existing
chapter file. -/
theorem transition_validation_witness :
    update_phase ⟨Phase.COMPLETE, 1, 1, [1], [1], [], []⟩ Phase.WRITING =
      Except.error StateError.stateConflict ∧
    FinalizeChapterTool.execute 1 ""
      { folder := some "p", fs := [("p/manuscript/chapter_01.md", "x")],
        persistOk := true,
        mem := some ⟨Phase.COMPLETE, 1, 1, [1], [1], [], []⟩, disk := none } =
      Except.error StateError.stateConflict :=
  ⟨transition_validation.1 ⟨Phase.COMPLETE, 1, 1, [1], [1], [], []⟩
      Phase.WRITING (by decide),
   transition_validation.2.2.1 _ _ "p" 1 "" rfl rfl (by decide) (by decide)⟩

/-! ## C1: the revision guard and the critique counter -/

theorem requestRevision_keeps_iterations (ch : Nat) (notes : String)
    (sys : SysState) (st : NovelState) (hm : sys.mem = some st) :
    ∃ st', (RequestRevisionTool.execute ch notes sys).2.mem = some st' ∧
      st'.chapter_critique_iterations = st.chapter_critique_iterations ∧
      st'.chapters_approved = st.chapters_approved ∧
      st'.chapters_completed = st.chapters_completed ∧
      (RequestRevisionTool.execute ch notes sys).2.folder = sys.folder := by
  obtain ⟨fo, fs, po, mm, dk⟩ := sys
  simp only at hm
  subst hm
  cases fo with
  | none => exact ⟨st, rfl, rfl, rfl, rfl, rfl⟩
  | some f =>
    by_cases hg : requestRevisionMaxIterations ≤
        dictGet st.chapter_critique_iterations ch
    · exact ⟨st, by simp [RequestRevisionTool.execute, hg], rfl, rfl, rfl,
        by simp [RequestRevisionTool.execute, hg]⟩
    · by_cases he : allowedEdge st.phase Phase.WRITING = true
      · by_cases hp : po = true
        · exact ⟨{ st with phase := Phase.WRITING },
            by simp [RequestRevisionTool.execute, hg, update_phase, he,
              save_state, hp], rfl, rfl, rfl,
            by simp [RequestRevisionTool.execute, hg, update_phase, he,
              save_state, hp]⟩
        · have hp' : po = false := by simpa using hp
          exact ⟨{ st with phase := Phase.WRITING },
            by simp [RequestRevisionTool.execute, hg, update_phase, he,
              save_state, hp'], rfl, rfl, rfl,
            by simp [RequestRevisionTool.execute, hg, update_phase, he,
              save_state, hp']⟩
      · have he' : allowedEdge st.phase Phase.WRITING = false := by
          simpa using he
        exact ⟨st,
          by simp [RequestRevisionTool.execute, hg, update_phase, he'], rfl,
          rfl, rfl,
          by simp [RequestRevisionTool.execute, hg, update_phase, he']⟩

theorem iterateRevision_keeps_iterations (ch : Nat) (notes : String) :
    ∀ (N : Nat) (sys : SysState) (st : NovelState), sys.mem = some st →
      ∃ st', (iterateRevision ch notes N sys).mem = some st' ∧
        st'.chapter_critique_iterations = st.chapter_critique_iterations := by
  intro N
  induction N with
  | zero => intro sys st hm; exact ⟨st, hm, rfl⟩
  | succ n ih =>
    intro sys st hm
    obtain ⟨st₁, h1, h2, _, _, _⟩ :=
      requestRevision_keeps_iterations ch notes sys st hm
    obtain ⟨st', h1', h2'⟩ := ih _ st₁ h1
    exact ⟨st', h1', by rw [h2', h2]⟩

/-- Counterexample for C1 as stated: on a chapter unit with stored count 0,
a single `request_revision` call leaves the stored count at 0 rather than
`min(1, max_iterations) = 1` (the counter is incremented by
`critique_chapter`, not by `request_revision`), and the
`(max_iterations+1) = 3`-rd consecutive `request_revision` call does not
return `auto_approve = true`. -/
theorem request_revision_count_counterexample :
    (RequestRevisionTool.execute 1 "n"
      { folder := some "p", fs := [], persistOk := true,
        mem := some ⟨Phase.WRITE_CRITIQUE, 1, 3, [1], [], [(1, 0)], []⟩,
        disk := none }).2.mem =
      some ⟨Phase.WRITING, 1, 3, [1], [], [(1, 0)], []⟩ ∧
    dictGet [(1, 0)] 1 ≠ min 1 requestRevisionMaxIterations ∧
    (RequestRevisionTool.execute 1 "n" (RequestRevisionTool.execute 1 "n"
      (RequestRevisionTool.execute 1 "n"
        { folder := some "p", fs := [], persistOk := true,
          mem := some ⟨Phase.WRITE_CRITIQUE, 1, 3, [1], [], [(1, 0)], []⟩,
          disk := none }).2).2).1.auto_approve = false := by
  refine ⟨?_, ?_, ?_⟩ <;> decide

/-- C1 (amended).  `request_revision` never modifies
`critique_iteration_count` — after any number N of consecutive
`request_revision` calls on a chapter without intervening approval the
stored dictionary (hence the count of every unit) is exactly what it was
initially (incrementing is done by `critique_chapter`) — and a
`request_revision` call returns `auto_approve = true` exactly when the
stored count for the chapter is already at least the hardcoded
`max_iterations = 2` at call time. -/
theorem request_revision_guard (sys : SysState) (st : NovelState) (f : String)
    (ch N : Nat) (notes : String)
    (hm : sys.mem = some st) (hf : sys.folder = some f) :
    ((RequestRevisionTool.execute ch notes sys).1.auto_approve = true ↔
      requestRevisionMaxIterations ≤ dictGet st.chapter_critique_iterations ch) ∧
    ∃ st', (iterateRevision ch notes N sys).mem = some st' ∧
      st'.chapter_critique_iterations = st.chapter_critique_iterations := by
  constructor
  · obtain ⟨fo, fs, po, mm, dk⟩ := sys
    simp only at hm hf
    subst hm hf
    by_cases hg : requestRevisionMaxIterations ≤
        dictGet st.chapter_critique_iterations ch
    · simp [RequestRevisionTool.execute, hg]
    · by_cases he : allowedEdge st.phase Phase.WRITING = true
      · by_cases hp : po = true
        · simp [RequestRevisionTool.execute, hg, update_phase, he,
            save_state, hp]
        · have hp' : po = false := by simpa using hp
          simp [RequestRevisionTool.execute, hg, update_phase, he,
            save_state, hp', revisionErrorResult]
      · have he' : allowedEdge st.phase Phase.WRITING = false := by
          simpa using he
        simp [RequestRevisionTool.execute, hg, update_phase, he',
          revisionErrorResult]
  · exact iterateRevision_keeps_iterations ch notes N sys st hm

/-- Witness for C1 (amended) at a concrete state with stored count 0. -/
theorem request_revision_guard_witness :
    (RequestRevisionTool.execute 1 "n"
      { folder := some "p", fs := [], persistOk := true,
        mem := some ⟨Phase.WRITE_CRITIQUE, 1, 3, [1], [], [(1, 0)], []⟩,
        disk := none }).1.auto_approve = true ↔
      requestRevisionMaxIterations ≤
        dictGet (⟨Phase.WRITE_CRITIQUE, 1, 3, [1], [], [(1, 0)], []⟩ :
          NovelState).chapter_critique_iterations 1 :=
  (request_revision_guard
    { folder := some "p", fs := [], persistOk := true,
      mem := some ⟨Phase.WRITE_CRITIQUE, 1, 3, [1], [], [(1, 0)], []⟩,
      disk := none }
    ⟨Phase.WRITE_CRITIQUE, 1, 3, [1], [], [(1, 0)], []⟩ "p" 1 3 "n" rfl rfl).1

/-! ## C3: approve_chapter and completion -/

theorem markApproved_phase (ch : Nat) (st : NovelState) :
    (markApproved ch st).phase = st.phase := by
  unfold markApproved
  by_cases h1 : ch ∈ st.chapters_completed <;>
    by_cases h2 : ch ∈ st.chapters_approved <;> simp [h1, h2]

theorem markApproved_total (ch : Nat) (st : NovelState) :
    (markApproved ch st).total_chapters = st.total_chapters := by
  unfold markApproved
  by_cases h1 : ch ∈ st.chapters_completed <;>
    by_cases h2 : ch ∈ st.chapters_approved <;> simp [h1, h2]

theorem markApproved_current (ch : Nat) (st : NovelState) :
    (markApproved ch st).current_chapter = st.current_chapter := by
  unfold markApproved
  by_cases h1 : ch ∈ st.chapters_completed <;>
    by_cases h2 : ch ∈ st.chapters_approved <;> simp [h1, h2]

theorem markApproved_iterations (ch : Nat) (st : NovelState) :
    (markApproved ch st).chapter_critique_iterations =
      st.chapter_critique_iterations := by
  unfold markApproved
  by_cases h1 : ch ∈ st.chapters_completed <;>
    by_cases h2 : ch ∈ st.chapters_approved <;> simp [h1, h2]

theorem markApproved_subset (ch : Nat) (st : NovelState)
    (h : ∀ x ∈ st.chapters_approved, x ∈ st.chapters_completed) :
    ∀ x ∈ (markApproved ch st).chapters_approved,
      x ∈ (markApproved ch st).chapters_completed := by
  by_cases h1 : ch ∈ st.chapters_completed
  · by_cases h2 : ch ∈ st.chapters_approved
    · have hrw : markApproved ch st = st := by simp [markApproved, h1, h2]
      rw [hrw]
      exact h
    · have hrw : markApproved ch st =
          { st with chapters_approved := st.chapters_approved ++ [ch] } := by
        simp [markApproved, h1, h2]
      rw [hrw]
      intro x hx
      simp only [List.mem_append, List.mem_singleton] at hx
      rcases hx with hx | rfl
      · exact h x hx
      · exact h1
  · by_cases h2 : ch ∈ st.chapters_approved
    · have hrw : markApproved ch st =
          { st with chapters_completed := st.chapters_completed ++ [ch] } := by
        simp [markApproved, h1, h2]
      rw [hrw]
      intro x hx
      simp only [List.mem_append, List.mem_singleton]
      exact Or.inl (h x hx)
    · have hrw : markApproved ch st =
          { st with chapters_completed := st.chapters_completed ++ [ch],
                    chapters_approved := st.chapters_approved ++ [ch] } := by
        simp [markApproved, h1, h2]
      rw [hrw]
      intro x hx
      simp only [List.mem_append, List.mem_singleton] at hx ⊢
      rcases hx with hx | rfl
      · exact Or.inl (h x hx)
      · exact Or.inr rfl

/-- Counterexample for C3 as stated: approving chapter 2 on a state with
`total_chapters = 1` and `chapters_approved = [1]` drives the phase to
`COMPLETE` while the number of approved chapters is 2, not equal to
`total_chapters` — the source compares with `>=`, not `==`. -/
theorem approve_chapter_counterexample :
    (ApproveChapterTool.execute 2 "ok"
      { folder := some "p", fs := [], persistOk := true,
        mem := some ⟨Phase.WRITE_CRITIQUE, 1, 1, [1, 2], [1], [], []⟩,
        disk := none }).2.mem =
      some ⟨Phase.COMPLETE, 1, 1, [1, 2], [1, 2], [], []⟩ ∧
    (⟨Phase.COMPLETE, 1, 1, [1, 2], [1, 2], [], []⟩ : NovelState).phase =
      Phase.COMPLETE ∧
    (⟨Phase.COMPLETE, 1, 1, [1, 2], [1, 2], [], []⟩ :
        NovelState).chapters_approved.length ≠
      (⟨Phase.COMPLETE, 1, 1, [1, 2], [1, 2], [], []⟩ :
        NovelState).total_chapters := by
  refine ⟨?_, ?_, ?_⟩ <;> decide

/-- C3 (amended).  After an `approve_chapter` call from `WRITE_CRITIQUE`
with a succeeding persistence write, the new state satisfies: phase equals
`COMPLETE` if and only if the number of approved chapters is at least
`total_chapters` (the source compares with `>=`, and approving a chapter
number outside the plan can push the count past `total_chapters`); when
fewer chapters are approved than `total_chapters`, the phase is set to
`WRITING` and `current_chapter` is advanced by one. -/
theorem approve_chapter_completion (sys : SysState) (st : NovelState)
    (f : String) (ch : Nat) (notes : String)
    (hm : sys.mem = some st) (hf : sys.folder = some f)
    (hph : st.phase = Phase.WRITE_CRITIQUE) (hper : sys.persistOk = true) :
    ∃ st', (ApproveChapterTool.execute ch notes sys).2.mem = some st' ∧
      st'.total_chapters = st.total_chapters ∧
      (st'.phase = Phase.COMPLETE ↔
        st.total_chapters ≤ st'.chapters_approved.length) ∧
      (st'.chapters_approved.length < st.total_chapters →
        st'.phase = Phase.WRITING ∧
        st'.current_chapter = st.current_chapter + 1) ∧
      (ApproveChapterTool.execute ch notes sys).1.success = true := by
  obtain ⟨fo, fs, po, mm, dk⟩ := sys
  simp only at hm hf hper
  subst hm hf hper
  have hphM : (markApproved ch st).phase = Phase.WRITE_CRITIQUE := by
    rw [markApproved_phase, hph]
  have htotM : (markApproved ch st).total_chapters = st.total_chapters :=
    markApproved_total ch st
  have hcurM : (markApproved ch st).current_chapter = st.current_chapter :=
    markApproved_current ch st
  have hA : allowedEdge Phase.WRITE_CRITIQUE Phase.COMPLETE = true := rfl
  have hW : allowedEdge Phase.WRITE_CRITIQUE Phase.WRITING = true := rfl
  by_cases hb : (markApproved ch st).total_chapters ≤
      (markApproved ch st).chapters_approved.length
  · refine ⟨{ markApproved ch st with phase := Phase.COMPLETE }, ?_, ?_, ?_, ?_, ?_⟩
    · simp [ApproveChapterTool.execute, hb, update_phase, hphM, save_state, hA]
    · simpa using htotM
    · simp only [true_iff]
      rw [← htotM]
      simpa using hb
    · intro hlt
      rw [← htotM] at hlt
      simp only at hlt
      exact absurd hb (Nat.not_le_of_lt (by simpa using hlt))
    · simp [ApproveChapterTool.execute, hb, update_phase, hphM, save_state, hA]
  · have hphI : (increment_chapter (markApproved ch st)).phase =
        Phase.WRITE_CRITIQUE := by
      simp [increment_chapter, hphM]
    refine ⟨{ increment_chapter (markApproved ch st) with
        phase := Phase.WRITING }, ?_, ?_, ?_, ?_, ?_⟩
    · simp [ApproveChapterTool.execute, hb, update_phase, hphI, save_state, hW]
    · simpa [increment_chapter] using htotM
    · simp only [increment_chapter]
      constructor
      · intro hcontra
        exact absurd hcontra (by simp)
      · intro hle
        rw [← htotM] at hle
        exact absurd hle hb
    · intro _
      refine ⟨rfl, ?_⟩
      simp [increment_chapter, hcurM]
    · simp [ApproveChapterTool.execute, hb, update_phase, hphI, save_state, hW]

/-- Witness for C3 (amended) at a concrete three-chapter workflow approving
chapter 1. -/
theorem approve_chapter_completion_witness :
    (ApproveChapterTool.execute 1 "ok"
      { folder := some "p", fs := [], persistOk := true,
        mem := some ⟨Phase.WRITE_CRITIQUE, 1, 3, [1], [], [], []⟩,
        disk := none }).1.success = true :=
  (approve_chapter_completion
    { folder := some "p", fs := [], persistOk := true,
      mem := some ⟨Phase.WRITE_CRITIQUE, 1, 3, [1], [], [], []⟩, disk := none }
    ⟨Phase.WRITE_CRITIQUE, 1, 3, [1], [], [], []⟩ "p" 1 "ok"
    rfl rfl rfl rfl).choose_spec.2.2.2.2

/-! ## C4: the approved-subset-of-completed invariant -/

theorem requestRevision_mem_none (ch : Nat) (notes : String) (sys : SysState)
    (hm : sys.mem = none) :
    (RequestRevisionTool.execute ch notes sys).2.mem = none := by
  obtain ⟨fo, fs, po, mm, dk⟩ := sys
  simp only at hm
  subst hm
  cases fo with
  | none => rfl
  | some f => simp [RequestRevisionTool.execute]

theorem critique_mem_lists (ch : Nat) (critique : String) (sys : SysState)
    (st' : NovelState)
    (h : (CritiqueChapterTool.execute ch critique sys).2.mem = some st') :
    ∃ st, sys.mem = some st ∧
      st'.chapters_approved = st.chapters_approved ∧
      st'.chapters_completed = st.chapters_completed := by
  obtain ⟨fo, fs, po, mm, dk⟩ := sys
  cases fo with
  | none => exact ⟨st', h, rfl, rfl⟩
  | some f =>
    cases mm with
    | none => simp [CritiqueChapterTool.execute] at h
    | some st =>
      by_cases hd : dictMem st.chapter_critique_iterations ch <;>
        by_cases hp : po = true <;>
          simp [CritiqueChapterTool.execute, hd, save_state, hp] at h <;>
            exact ⟨st, rfl, by rw [← h], by rw [← h]⟩

theorem getContext_mem_lists (ch : Nat) (sys : SysState) (st' : NovelState)
    (h : (GetChapterContextTool.execute ch sys).2.mem = some st') :
    ∃ st, sys.mem = some st ∧
      st'.chapters_approved = st.chapters_approved ∧
      st'.chapters_completed = st.chapters_completed := by
  obtain ⟨fo, fs, po, mm, dk⟩ := sys
  cases fo with
  | none => exact ⟨st', h, rfl, rfl⟩
  | some f =>
    by_cases ho : (lookupA fs (outlinePath f)).isNone = true
    · refine ⟨st', ?_, rfl, rfl⟩
      simpa [GetChapterContextTool.execute, ho] using h
    · have ho' : (lookupA fs (outlinePath f)).isNone = false :=
        Bool.eq_false_iff.mpr ho
      cases mm with
      | none => simp [GetChapterContextTool.execute, ho'] at h
      | some st =>
        by_cases hd : dictMem st.chapter_critique_iterations ch <;>
          by_cases hp : po = true <;>
            simp [GetChapterContextTool.execute, ho', hd, save_state, hp] at h <;>
              exact ⟨st, rfl, by rw [← h], by rw [← h]⟩

theorem writeFile_mem_lists (fn content : String) (mode : WriteMode)
    (sys : SysState) (st' : NovelState)
    (h : (WriteFileTool.execute fn content mode sys).2.mem = some st') :
    ∃ st, sys.mem = some st ∧
      st'.chapters_approved = st.chapters_approved ∧
      st'.chapters_completed = st.chapters_completed := by
  obtain ⟨fo, fs, po, mm, dk⟩ := sys
  cases fo with
  | none => exact ⟨st', h, rfl, rfl⟩
  | some f =>
    cases mode with
    | append => exact ⟨st', by simpa [WriteFileTool.execute] using h, rfl, rfl⟩
    | overwrite => exact ⟨st', by simpa [WriteFileTool.execute] using h, rfl, rfl⟩
    | create =>
      by_cases hex : (lookupA fs (f ++ "/" ++ ensureMd fn)).isSome = true
      · refine ⟨st', ?_, rfl, rfl⟩
        simpa [WriteFileTool.execute, hex] using h
      · have hex' : (lookupA fs (f ++ "/" ++ ensureMd fn)).isSome = false := by
          simpa using hex
        cases mm with
        | none => simp [WriteFileTool.execute, hex'] at h
        | some st =>
          by_cases hfn : ensureMd fn ∈ st.plan_files_created <;>
            by_cases hp : po = true <;>
              simp [WriteFileTool.execute, hex', hfn, save_state, hp] at h <;>
                exact ⟨st, rfl, by rw [← h], by rw [← h]⟩

theorem finalize_ok_mem_lists (ch : Nat) (notes : String) (sys : SysState)
    (r : ToolResult × SysState) (st' : NovelState)
    (hok : FinalizeChapterTool.execute ch notes sys = Except.ok r)
    (h : r.2.mem = some st') :
    ∃ st, sys.mem = some st ∧
      st'.chapters_approved = st.chapters_approved ∧
      st'.chapters_completed = st.chapters_completed := by
  obtain ⟨fo, fs, po, mm, dk⟩ := sys
  cases fo with
  | none =>
    simp only [FinalizeChapterTool.execute, Except.ok.injEq] at hok
    rw [← hok] at h
    exact ⟨st', h, rfl, rfl⟩
  | some f =>
    by_cases hex : (lookupA fs (chapterPath f ch)).isNone = true
    · simp only [FinalizeChapterTool.execute, hex, if_true, Except.ok.injEq]
        at hok
      rw [← hok] at h
      exact ⟨st', h, rfl, rfl⟩
    · have hex' : (lookupA fs (chapterPath f ch)).isNone = false :=
        Bool.eq_false_iff.mpr hex
      cases mm with
      | none =>
        simp only [FinalizeChapterTool.execute, hex', Bool.false_eq_true,
          if_false, Except.ok.injEq] at hok
        rw [← hok] at h
        simp at h
      | some st =>
        by_cases he : allowedEdge st.phase Phase.WRITE_CRITIQUE = true
        · by_cases hp : po = true
          · simp only [FinalizeChapterTool.execute, hex', Bool.false_eq_true,
              if_false, update_phase, he, if_true, save_state, hp,
              Except.ok.injEq] at hok
            rw [← hok] at h
            simp only [Option.some.injEq] at h
            exact ⟨st, rfl, by rw [← h], by rw [← h]⟩
          · have hp' : po = false := Bool.eq_false_iff.mpr hp
            simp [FinalizeChapterTool.execute, hex', update_phase, he,
              save_state, hp'] at hok
        · have he' : allowedEdge st.phase Phase.WRITE_CRITIQUE = false :=
            Bool.eq_false_iff.mpr he
          simp [FinalizeChapterTool.execute, hex', update_phase, he'] at hok

theorem approve_mem_lists (ch : Nat) (notes : String) (sys : SysState)
    (st' : NovelState)
    (h : (ApproveChapterTool.execute ch notes sys).2.mem = some st') :
    sys.mem = some st' ∨
    ∃ st, sys.mem = some st ∧
      st'.chapters_approved = (markApproved ch st).chapters_approved ∧
      st'.chapters_completed = (markApproved ch st).chapters_completed := by
  obtain ⟨fo, fs, po, mm, dk⟩ := sys
  cases fo with
  | none => exact Or.inl h
  | some f =>
    cases mm with
    | none => simp [ApproveChapterTool.execute] at h
    | some st =>
      refine Or.inr ⟨st, rfl, ?_⟩
      by_cases hb : (markApproved ch st).total_chapters ≤
          (markApproved ch st).chapters_approved.length
      · by_cases he : allowedEdge (markApproved ch st).phase Phase.COMPLETE = true
        · by_cases hp : po = true
          · simp [ApproveChapterTool.execute, hb, update_phase, he,
              save_state, hp] at h
            exact ⟨by rw [← h], by rw [← h]⟩
          · have hp' : po = false := Bool.eq_false_iff.mpr hp
            simp [ApproveChapterTool.execute, hb, update_phase, he,
              save_state, hp'] at h
            exact ⟨by rw [← h], by rw [← h]⟩
        · have he' : allowedEdge (markApproved ch st).phase Phase.COMPLETE =
              false := Bool.eq_false_iff.mpr he
          simp [ApproveChapterTool.execute, hb, update_phase, he'] at h
          exact ⟨by rw [← h], by rw [← h]⟩
      · by_cases he : allowedEdge (markApproved ch st).phase Phase.WRITING = true
        · by_cases hp : po = true
          · simp [ApproveChapterTool.execute, hb, update_phase, he,
              save_state, hp, increment_chapter] at h
            exact ⟨by rw [← h], by rw [← h]⟩
          · have hp' : po = false := Bool.eq_false_iff.mpr hp
            simp [ApproveChapterTool.execute, hb, update_phase, he,
              save_state, hp', increment_chapter] at h
            exact ⟨by rw [← h], by rw [← h]⟩
        · have he' : allowedEdge (markApproved ch st).phase Phase.WRITING =
              false := Bool.eq_false_iff.mpr he
          simp [ApproveChapterTool.execute, hb, update_phase, he',
            increment_chapter] at h
          exact ⟨by rw [← h], by rw [← h]⟩

/-- C4.  Every embedded tool handler preserves the invariant
`chapters_approved ⊆ chapters_completed`: in particular `approve_chapter`,
the only handler that extends `chapters_approved`, first ensures the
chapter is in `chapters_completed`. -/
theorem approved_subset_invariant (sys : SysState) (ch : Nat)
    (notes critique fn content : String) (mode : WriteMode)
    (h : ∀ st, sys.mem = some st →
      ∀ x ∈ st.chapters_approved, x ∈ st.chapters_completed) :
    (∀ st', (ApproveChapterTool.execute ch notes sys).2.mem = some st' →
      ∀ x ∈ st'.chapters_approved, x ∈ st'.chapters_completed) ∧
    (∀ st', (RequestRevisionTool.execute ch notes sys).2.mem = some st' →
      ∀ x ∈ st'.chapters_approved, x ∈ st'.chapters_completed) ∧
    (∀ st', (CritiqueChapterTool.execute ch critique sys).2.mem = some st' →
      ∀ x ∈ st'.chapters_approved, x ∈ st'.chapters_completed) ∧
    (∀ st', (GetChapterContextTool.execute ch sys).2.mem = some st' →
      ∀ x ∈ st'.chapters_approved, x ∈ st'.chapters_completed) ∧
    (∀ st', (WriteFileTool.execute fn content mode sys).2.mem = some st' →
      ∀ x ∈ st'.chapters_approved, x ∈ st'.chapters_completed) ∧
    (∀ r st', FinalizeChapterTool.execute ch notes sys = Except.ok r →
      r.2.mem = some st' →
      ∀ x ∈ st'.chapters_approved, x ∈ st'.chapters_completed) := by
  refine ⟨?_, ?_, ?_, ?_, ?_, ?_⟩
  · intro st' hmem
    rcases approve_mem_lists ch notes sys st' hmem with hid | ⟨st, hst, ha, hc⟩
    · exact h st' hid
    · rw [ha, hc]
      exact markApproved_subset ch st (h st hst)
  · intro st' hmem
    cases hm : sys.mem with
    | none =>
      rw [requestRevision_mem_none ch notes sys hm] at hmem
      exact absurd hmem (by simp)
    | some st =>
      obtain ⟨st₁, h1, _, ha, hc, _⟩ :=
        requestRevision_keeps_iterations ch notes sys st hm
      rw [hmem] at h1
      injection h1 with h1
      rw [← h1] at ha hc
      rw [ha, hc]
      exact h st hm
  · intro st' hmem
    obtain ⟨st, hst, ha, hc⟩ := critique_mem_lists ch critique sys st' hmem
    rw [ha, hc]
    exact h st hst
  · intro st' hmem
    obtain ⟨st, hst, ha, hc⟩ := getContext_mem_lists ch sys st' hmem
    rw [ha, hc]
    exact h st hst
  · intro st' hmem
    obtain ⟨st, hst, ha, hc⟩ := writeFile_mem_lists fn content mode sys st' hmem
    rw [ha, hc]
    exact h st hst
  · intro r st' hok hmem
    obtain ⟨st, hst, ha, hc⟩ := finalize_ok_mem_lists ch notes sys r st' hok hmem
    rw [ha, hc]
    exact h st hst

/-- Witness for C4 at a concrete approval: approving chapter 2 on a state
with `chapters_completed = [1, 2]`, `chapters_approved = [1]` keeps the
invariant — in the new state chapter 2 is completed. -/
theorem approved_subset_invariant_witness :
    (2 : Nat) ∈ (⟨Phase.WRITING, 2, 3, [1, 2], [1, 2], [], []⟩ :
      NovelState).chapters_completed :=
  (approved_subset_invariant
    { folder := some "p", fs := [], persistOk := true,
      mem := some ⟨Phase.WRITE_CRITIQUE, 1, 3, [1, 2], [1], [], []⟩,
      disk := none } 2 "ok" "c" "f" "x" WriteMode.create
    (by
      intro st hst
      rw [Option.some.injEq] at hst
      subst hst
      intro x hx
      have hx1 : x = 1 := by simpa using hx
      simp [hx1])).1
    ⟨Phase.WRITING, 2, 3, [1, 2], [1, 2], [], []⟩ (by decide) 2 (by decide)

/-! ## C5: persistence failure and rollback -/

/-- C5.  The code does not satisfy the rollback contract: on an
`approve_chapter` whose persistence write fails, the handler reports a
failure result, but the in-memory state keeps the mutation (chapter 1 is
approved, the chapter counter advanced, the phase moved to `WRITING`) while
the persisted snapshot still holds the pre-call state — in-memory state and
disk diverge, with no retry and no rollback. -/
theorem approve_persistence_no_rollback :
    (ApproveChapterTool.execute 1 "ok"
      { folder := some "p", fs := [], persistOk := false,
        mem := some ⟨Phase.WRITE_CRITIQUE, 1, 3, [1], [], [], []⟩,
        disk := some ⟨Phase.WRITE_CRITIQUE, 1, 3, [1], [], [], []⟩
      }).1.success = false ∧
    (ApproveChapterTool.execute 1 "ok"
      { folder := some "p", fs := [], persistOk := false,
        mem := some ⟨Phase.WRITE_CRITIQUE, 1, 3, [1], [], [], []⟩,
        disk := some ⟨Phase.WRITE_CRITIQUE, 1, 3, [1], [], [], []⟩
      }).2.mem = some ⟨Phase.WRITING, 2, 3, [1], [1], [], []⟩ ∧
    (ApproveChapterTool.execute 1 "ok"
      { folder := some "p", fs := [], persistOk := false,
        mem := some ⟨Phase.WRITE_CRITIQUE, 1, 3, [1], [], [], []⟩,
        disk := some ⟨Phase.WRITE_CRITIQUE, 1, 3, [1], [], [], []⟩
      }).2.disk = some ⟨Phase.WRITE_CRITIQUE, 1, 3, [1], [], [], []⟩ ∧
    (⟨Phase.WRITING, 2, 3, [1], [1], [], []⟩ : NovelState) ≠
      ⟨Phase.WRITE_CRITIQUE, 1, 3, [1], [], [], []⟩ := by
  refine ⟨?_, ?_, ?_, ?_⟩ <;> decide

/-! ## C8: the guard bound versus the configured bound -/

/-- C8.  The revision guard does not enforce the configured
`max_write_critique_iterations`: `5` is a legal configured value
(`AgentConfig` accepts any integer in `[1, 10]`), yet `request_revision` on
a chapter whose stored count is `2` — strictly below the configured `5` —
already returns `auto_approve = true`, because the handler compares against
the hardcoded `max_iterations = 2` and takes no configuration input at
all. -/
theorem revision_guard_ignores_config :
    agentConfigValid 2 5 = true ∧
    (RequestRevisionTool.execute 1 "n"
      { folder := some "p", fs := [], persistOk := true,
        mem := some ⟨Phase.WRITE_CRITIQUE, 1, 3, [1], [], [(1, 2)], []⟩,
        disk := none }).1.auto_approve = true ∧
    dictGet [(1, 2)] 1 < 5 ∧
    requestRevisionMaxIterations = 2 := by
  refine ⟨?_, ?_, ?_, ?_⟩ <;> decide

/-! ## C9: create mode of the document write operation -/

/-- C9.  `write_file` in `create` mode fails and leaves the file system
untouched when the target (the filename normalized to a `.md` suffix,
joined under the project folder) already exists, and otherwise creates the
target containing exactly the given content. -/
theorem write_create_mode (sys : SysState) (folder fn content : String)
    (hf : sys.folder = some folder) :
    (∀ old, lookupA sys.fs (folder ++ "/" ++ ensureMd fn) = some old →
      (WriteFileTool.execute fn content WriteMode.create sys).1.success = false ∧
      (WriteFileTool.execute fn content WriteMode.create sys).2.fs = sys.fs) ∧
    (lookupA sys.fs (folder ++ "/" ++ ensureMd fn) = none →
      lookupA (WriteFileTool.execute fn content WriteMode.create sys).2.fs
        (folder ++ "/" ++ ensureMd fn) = some content) := by
  obtain ⟨fo, fs, po, mm, dk⟩ := sys
  simp only at hf
  subst hf
  constructor
  · intro old hold
    have hex : (lookupA fs (folder ++ "/" ++ ensureMd fn)).isSome = true := by
      rw [hold]
      rfl
    constructor <;> simp [WriteFileTool.execute, hex]
  · intro hnone
    have hex : (lookupA fs (folder ++ "/" ++ ensureMd fn)).isSome = false := by
      rw [hnone]
      rfl
    cases mm with
    | none => simp [WriteFileTool.execute, hex, fsWrite, lookupA_setA_self]
    | some st =>
      by_cases hfn : ensureMd fn ∈ st.plan_files_created
      · by_cases hp : po = true
        · simp [WriteFileTool.execute, hex, hfn, save_state, hp, fsWrite,
            lookupA_setA_self]
        · have hp' : po = false := Bool.eq_false_iff.mpr hp
          simp [WriteFileTool.execute, hex, hfn, save_state, hp', fsWrite,
            lookupA_setA_self]
      · by_cases hp : po = true
        · simp [WriteFileTool.execute, hex, hfn, save_state, hp, fsWrite,
            lookupA_setA_self]
        · have hp' : po = false := Bool.eq_false_iff.mpr hp
          simp [WriteFileTool.execute, hex, hfn, save_state, hp', fsWrite,
            lookupA_setA_self]

/-- Witness for C9: creating `notes.md` fails without modifying an existing
file, and succeeds creating the exact content when it does not exist. -/
theorem write_create_mode_witness :
    ((WriteFileTool.execute "notes" "x" WriteMode.create
        { folder := some "p", fs := [("p/notes.md", "prev")],
          persistOk := true, mem := none, disk := none }).1.success = false ∧
      (WriteFileTool.execute "notes" "x" WriteMode.create
        { folder := some "p", fs := [("p/notes.md", "prev")],
          persistOk := true, mem := none, disk := none }).2.fs =
        ({ folder := some "p", fs := [("p/notes.md", "prev")],
           persistOk := true, mem := none, disk := none } : SysState).fs) ∧
    lookupA (WriteFileTool.execute "notes" "x" WriteMode.create
        { folder := some "p", fs := [], persistOk := true,
          mem := none, disk := none }).2.fs ("p" ++ "/" ++ ensureMd "notes") =
      some "x" :=
  ⟨(write_create_mode
      { folder := some "p", fs := [("p/notes.md", "prev")],
        persistOk := true, mem := none, disk := none } "p" "notes" "x"
      rfl).1 "prev" (by decide),
   (write_create_mode
      { folder := some "p", fs := [], persistOk := true,
        mem := none, disk := none } "p" "notes" "x" rfl).2 (by decide)⟩

end KimiWriter
